import Mathlib

/-!
Verification of `src/ch2/process-creation/proc_demo.c` (Unix branch).

The program parses its own command line (`parse_args`), then either runs as
a child worker (`child_work`, terminating abruptly with its index as exit
code) or as a parent orchestrator (spawning children 1..2 sequentially,
waiting for each, and decoding its wait status).

Arguments are modelled as lists of characters (C strings); the argument
vector is a list of such strings, whose head is the program name (the C
loop in `parse_args` starts at index 1 and therefore skips it).
-/

namespace ProcDemo

/-- C `isdigit` on the ASCII range, as used by `atoi`. -/
def isdigit (c : Char) : Bool := 48 ≤ c.toNat && c.toNat ≤ 57

/-- C `isspace`: space, tab, newline, vertical tab, form feed, carriage return. -/
def isspace (c : Char) : Bool :=
  c.toNat = 32 || c.toNat = 9 || c.toNat = 10 || c.toNat = 11 || c.toNat = 12 || c.toNat = 13

/-- The digit-accumulation loop of C `atoi`: consume leading decimal digits,
accumulating their value; stop at the first non-digit. -/
def atoiLoop : List Char → Nat → Nat
  | [], acc => acc
  | c :: cs, acc => if isdigit c then atoiLoop cs (10 * acc + (c.toNat - 48)) else acc

/-- `atoi` skips leading whitespace before the optional sign. -/
def skipWs : List Char → List Char
  | [] => []
  | c :: cs => if isspace c then skipWs cs else c :: cs

/-- C `atoi` on a character list: skip whitespace, read an optional single
sign, then read leading digits; any text without leading digits yields 0.
(Overflow of the C `int` is undefined behaviour; theorems that depend on a
concrete numeric value therefore restrict it to the `int` range.) -/
def atoiChars (t : List Char) : Int :=
  match skipWs t with
  | [] => 0
  | c :: cs =>
    if c = '-' then -(atoiLoop cs 0 : Int)
    else if c = '+' then (atoiLoop cs 0 : Int)
    else (atoiLoop (c :: cs) 0 : Int)

/-- The two file-scope globals of proc_demo.c: `static int is_child = 0;`
and `static int child_idx = 0;`. -/
structure ProcState where
  is_child : Int
  child_idx : Int
deriving DecidableEq, Repr

/-- The loop body of `parse_args` (proc_demo.c lines 37-44): `strcmp(argv[i],
"--child") == 0` sets `is_child = 1`; otherwise `strncmp(argv[i], "--id=", 5)
== 0` sets `child_idx = atoi(argv[i] + 5)`. -/
def parseArg (st : ProcState) (arg : List Char) : ProcState :=
  if arg = "--child".toList then { st with is_child := 1 }
  else if arg.take 5 = "--id=".toList then { st with child_idx := atoiChars (arg.drop 5) }
  else st

/-- `parse_args` (proc_demo.c lines 36-45): fold the loop body over
`argv[1..argc-1]`, starting from the zero-initialised globals. -/
def parse_args (argv : List (List Char)) : ProcState :=
  (argv.drop 1).foldl parseArg ⟨0, 0⟩

/-- The role derived from the parsed state, as read off by `main`'s
`if (is_child)` test (line 97). -/
inductive InvocationRole where
  | parent
  | child (index : Int)
deriving DecidableEq, Repr

/-- Role resolution: `parse_args` followed by `main`'s `if (is_child)` branch. -/
def resolveRole (argv : List (List Char)) : InvocationRole :=
  let st := parse_args argv
  if st.is_child ≠ 0 then .child st.child_idx else .parent

/-- How a process run ends: `_exit`/`ExitProcess` (abrupt, bypassing cleanup)
versus a normal `return` from `main`. -/
inductive Termination where
  | abruptExit (code : Int)
  | normalReturn (code : Int)
deriving DecidableEq, Repr

/-- `child_work` (proc_demo.c lines 53-83): after printing and sleeping, the
child terminates via `_exit(child_idx)` — an abrupt exit whose code is the
child's own index. -/
def child_work (idx : Int) : Termination := .abruptExit idx

/-- The child-side exec-failure path (proc_demo.c line 228): after a failed
`execvp`, the forked child runs `_exit(127)`. -/
def execFailTermination : Termination := .abruptExit 127

/-- `WIFEXITED(status)`: low 7 bits are zero. -/
def wifexited (s : Nat) : Bool := s % 128 == 0

/-- `WEXITSTATUS(status)`: bits 8..15. -/
def wexitstatus (s : Nat) : Nat := (s / 256) % 256

/-- `WIFSIGNALED(status)`: low 7 bits are neither 0 (normal exit) nor
0x7f (stopped). -/
def wifsignaled (s : Nat) : Bool := s % 128 != 0 && s % 128 != 127

/-- `WTERMSIG(status)`: low 7 bits. -/
def wtermsig (s : Nat) : Nat := s % 128

/-- The decoded termination outcome of a waited-for child (spec's
`TerminationOutcome`). -/
inductive TerminationOutcome where
  | exited (code : Nat)
  | signaled (sig : Nat)
  | unknown (raw : Nat)
deriving DecidableEq, Repr

/-- The status-decoding cascade of `main` (proc_demo.c lines 242-253):
`WIFEXITED` first, then `WIFSIGNALED`, otherwise report the raw status word. -/
def decode_status (s : Nat) : TerminationOutcome :=
  if wifexited s then .exited (wexitstatus s)
  else if wifsignaled s then .signaled (wtermsig s)
  else .unknown s

/-- Observable steps of one parent-loop iteration. -/
inductive Event where
  | spawnAttempt (i : Nat)
  | spawnFailed (i : Nat)
  | spawned (i : Nat)
  | waitCompleted (i : Nat)
  | decoded (i : Nat) (o : TerminationOutcome)
deriving DecidableEq, Repr

/-- The environment's answer to one `fork`+`waitpid` round for child `i`:
`none` if `fork` fails (negative return), otherwise the raw wait status that
`waitpid` stores for that child. -/
def SpawnEnv : Type := Nat → Option Nat

/-- One iteration of the parent loop (proc_demo.c lines 187-255): announce
and attempt the spawn; on `fork` failure `continue`; otherwise wait for that
child (`waitpid(pid, &status, 0)`) and decode its status. -/
def iterEvents (env : SpawnEnv) (i : Nat) : List Event :=
  match env i with
  | none => [.spawnAttempt i, .spawnFailed i]
  | some status =>
      [.spawnAttempt i, .spawned i, .waitCompleted i, .decoded i (decode_status status)]

/-- The loop bounds `for (int i = 1; i <= 2; ++i)`. -/
def childIndices : List Nat := [1, 2]

/-- The full parent-mode event trace: the loop iterations in order. -/
def orchestrate (env : SpawnEnv) : List Event :=
  childIndices.foldl (fun t i => t ++ iterEvents env i) []

/-- The child index an event belongs to. -/
def eventOwner : Event → Nat
  | .spawnAttempt i => i
  | .spawnFailed i => i
  | .spawned i => i
  | .waitCompleted i => i
  | .decoded i _ => i

/-- Whether an event is a spawn attempt. -/
def isSpawnAttemptEv : Event → Bool
  | .spawnAttempt _ => true
  | _ => false

/-- The overall result of one program run: either the child path (its
termination) or the parent path (its event trace and its termination). -/
inductive RunResult where
  | child (t : Termination)
  | parent (trace : List Event) (t : Termination)
deriving DecidableEq, Repr

/-- `main` (proc_demo.c lines 92-262): parse the arguments; in child mode run
`child_work` (which never returns — its `_exit` is the termination); in
parent mode run the orchestration loop and `return 0`. -/
def mainRun (argv : List (List Char)) (env : SpawnEnv) : RunResult :=
  let st := parse_args argv
  if st.is_child ≠ 0 then .child (child_work st.child_idx)
  else .parent (orchestrate env) (.normalReturn 0)

/-- The ASCII digit character for a value 0..9, as produced by `snprintf`. -/
def digitChar (d : Nat) : Char := Char.ofNat (48 + d)

/-- The decimal digits of `n`, least significant first. -/
def natDigitsRev : Nat → List Char
  | 0 => []
  | n + 1 => digitChar ((n + 1) % 10) :: natDigitsRev ((n + 1) / 10)
  termination_by n => n
  decreasing_by
    simp_wf
    exact Nat.div_lt_self (Nat.succ_pos _) (by decide)

/-- `snprintf` with `"%d"` on a nonnegative value: its decimal digit string. -/
def decimalChars (n : Nat) : List Char :=
  if n = 0 then ['0'] else (natDigitsRev n).reverse

/-- The argument vector the orchestrator constructs for child `i`
(proc_demo.c lines 210-219): `{ argv[0], "--child", "--id=<i>", NULL }`. -/
def childArgs (argv0 : List Char) (i : Nat) : List (List Char) :=
  [argv0, "--child".toList, "--id=".toList ++ decimalChars i]

/-- Whether an argument passes the `strncmp(argv[i], "--id=", 5) == 0` test. -/
def isIdArg (a : List Char) : Bool := a.take 5 == "--id=".toList

/- ------------------------------------------------------------------ -/
/-  Helper lemmas                                                      -/
/- ------------------------------------------------------------------ -/

theorem atoiLoop_no_digit (t : List Char) (acc : Nat)
    (h : ∀ c ∈ t, isdigit c = false) : atoiLoop t acc = acc := by
  cases t with
  | nil => rfl
  | cons c cs =>
      have hc : isdigit c = false := h c (by simp)
      simp [atoiLoop, hc]

theorem skipWs_subset (t : List Char) : ∀ c ∈ skipWs t, c ∈ t := by
  induction t with
  | nil => simp [skipWs]
  | cons a l ih =>
      intro c hc
      by_cases ha : isspace a = true
      · simp only [skipWs, ha, if_pos] at hc
        exact List.mem_cons_of_mem _ (ih c hc)
      · simp only [skipWs, ha, if_neg] at hc
        simpa using hc

theorem atoiChars_no_digit (t : List Char)
    (h : ∀ c ∈ t, isdigit c = false) : atoiChars t = 0 := by
  have hsub := skipWs_subset t
  have hloop : ∀ u acc, (∀ c ∈ u, c ∈ skipWs t) → atoiLoop u acc = acc := by
    intro u acc hu
    exact atoiLoop_no_digit u acc (fun c hc => h c (hsub c (hu c hc)))
  unfold atoiChars
  cases hw : skipWs t with
  | nil => rfl
  | cons c cs =>
      have hcs : ∀ x ∈ cs, x ∈ skipWs t := by intro x hx; rw [hw]; simp [hx]
      have hall : ∀ x ∈ c :: cs, x ∈ skipWs t := by intro x hx; rw [hw]; exact hx
      by_cases h1 : c = '-'
      · simp [h1, hloop cs 0 hcs]
      · by_cases h2 : c = '+'
        · simp [h1, h2, hloop cs 0 hcs]
        · simp [h1, h2, hloop (c :: cs) 0 hall]

theorem digitChar_facts (d : Nat) (h : d < 10) :
    isdigit (digitChar d) = true ∧ (digitChar d).toNat - 48 = d ∧
    isspace (digitChar d) = false ∧ digitChar d ≠ '-' ∧ digitChar d ≠ '+' := by
  interval_cases d <;> exact ⟨by decide, by decide, by decide, by decide, by decide⟩

theorem natDigitsRev_all_digit (n : Nat) : ∀ c ∈ natDigitsRev n, isdigit c = true := by
  induction n using Nat.strong_induction_on with
  | _ n ih =>
      cases n with
      | zero => simp [natDigitsRev]
      | succ m =>
          intro c hc
          rw [natDigitsRev] at hc
          rcases List.mem_cons.mp hc with h | h
          · subst h
            exact (digitChar_facts _ (Nat.mod_lt _ (by decide))).1
          · exact ih ((m + 1) / 10) (Nat.div_lt_self (Nat.succ_pos m) (by decide)) c h

theorem atoiLoop_append (xs ys : List Char) (acc : Nat)
    (hx : ∀ c ∈ xs, isdigit c = true) :
    atoiLoop (xs ++ ys) acc = atoiLoop ys (atoiLoop xs acc) := by
  induction xs generalizing acc with
  | nil => simp [atoiLoop]
  | cons c cs ih =>
      have hc : isdigit c = true := hx c (by simp)
      have hcs : ∀ x ∈ cs, isdigit x = true := fun x hxm => hx x (by simp [hxm])
      simp [atoiLoop, hc, ih _ hcs]

theorem atoiLoop_decimal (n : Nat) : ∀ acc,
    atoiLoop ((natDigitsRev n).reverse) acc = acc * 10 ^ (natDigitsRev n).length + n := by
  induction n using Nat.strong_induction_on with
  | _ n ih =>
      intro acc
      cases n with
      | zero => simp [natDigitsRev, atoiLoop]
      | succ m =>
          rw [natDigitsRev]
          have hdiv : (m + 1) / 10 < m + 1 := Nat.div_lt_self (Nat.succ_pos m) (by decide)
          have hmod : (m + 1) % 10 < 10 := Nat.mod_lt _ (by decide)
          have hall : ∀ c ∈ (natDigitsRev ((m + 1) / 10)).reverse, isdigit c = true := by
            intro c hc
            exact natDigitsRev_all_digit _ c (List.mem_reverse.mp hc)
          rw [List.reverse_cons, atoiLoop_append _ _ _ hall, ih _ hdiv acc]
          have hd := digitChar_facts ((m + 1) % 10) hmod
          simp only [atoiLoop, hd.1, if_pos, hd.2.1]
          have hsplit : 10 * ((m + 1) / 10) + (m + 1) % 10 = m + 1 := by omega
          calc 10 * (acc * 10 ^ (natDigitsRev ((m + 1) / 10)).length + (m + 1) / 10) +
                  (m + 1) % 10
              = acc * (10 ^ (natDigitsRev ((m + 1) / 10)).length * 10) +
                  (10 * ((m + 1) / 10) + (m + 1) % 10) := by ring
            _ = acc * 10 ^ (digitChar ((m + 1) % 10) :: natDigitsRev ((m + 1) / 10)).length +
                  (m + 1) := by rw [hsplit]; simp [List.length_cons, pow_succ]

theorem decimalChars_all_digit (n : Nat) : ∀ c ∈ decimalChars n, isdigit c = true := by
  unfold decimalChars
  split
  · simp
    decide
  · intro c hc
    exact natDigitsRev_all_digit n c (List.mem_reverse.mp hc)

theorem decimalChars_ne_nil (n : Nat) : decimalChars n ≠ [] := by
  unfold decimalChars
  split
  · simp
  · rename_i hn
    cases n with
    | zero => exact absurd rfl hn
    | succ m => simp [natDigitsRev]

theorem atoiChars_cons_digit (c : Char) (cs : List Char) (hd : isdigit c = true) :
    atoiChars (c :: cs) = (atoiLoop (c :: cs) 0 : Int) := by
  have hb : 48 ≤ c.toNat ∧ c.toNat ≤ 57 := by
    simpa [isdigit] using hd
  have hs : isspace c = false := by
    simp only [isspace]
    simp only [Bool.or_eq_false_iff, decide_eq_false_iff_not]
    omega
  have h1 : c ≠ '-' := by
    intro h
    subst h
    exact absurd hd (by decide)
  have h2 : c ≠ '+' := by
    intro h
    subst h
    exact absurd hd (by decide)
  unfold atoiChars
  rw [show skipWs (c :: cs) = c :: cs from by simp [skipWs, hs]]
  simp [h1, h2]

theorem atoiChars_decimal (n : Nat) : atoiChars (decimalChars n) = (n : Int) := by
  by_cases hn : n = 0
  · subst hn
    decide
  · obtain ⟨c, cs, hcc⟩ : ∃ c cs, decimalChars n = c :: cs := by
      cases h : decimalChars n with
      | nil => exact absurd h (decimalChars_ne_nil n)
      | cons c cs => exact ⟨c, cs, rfl⟩
    have hd : isdigit c = true := decimalChars_all_digit n c (by rw [hcc]; simp)
    rw [hcc, atoiChars_cons_digit c cs hd, ← hcc]
    unfold decimalChars
    rw [if_neg hn, atoiLoop_decimal n 0]
    simp

theorem parseArg_is_child (st : ProcState) (a : List Char) :
    (parseArg st a).is_child = if a = "--child".toList then 1 else st.is_child := by
  unfold parseArg
  split
  · rename_i h
    simp [h]
  · rename_i h
    split <;> simp [h]

theorem foldl_is_child (l : List (List Char)) (st : ProcState) :
    (l.foldl parseArg st).is_child = if "--child".toList ∈ l then 1 else st.is_child := by
  induction l generalizing st with
  | nil => simp
  | cons a l ih =>
      rw [List.foldl_cons, ih]
      by_cases ha : a = "--child".toList
      · subst ha
        simp [parseArg_is_child]
      · have ha' : ¬("--child".toList = a) := fun h => ha h.symm
        rw [parseArg_is_child, if_neg ha]
        by_cases hm : "--child".toList ∈ l
        · rw [if_pos hm, if_pos (List.mem_cons_of_mem a hm)]
        · rw [if_neg hm, if_neg (fun hc => (List.mem_cons.mp hc).elim ha' hm)]

theorem parseArg_child_idx (st : ProcState) (a : List Char) :
    (parseArg st a).child_idx = if isIdArg a then atoiChars (a.drop 5) else st.child_idx := by
  unfold parseArg isIdArg
  split
  · rename_i h
    subst h
    rw [if_neg (by decide)]
  · split
    · rename_i h2
      simp only [beq_iff_eq]
      rw [if_pos h2]
    · rename_i h2
      simp only [beq_iff_eq]
      rw [if_neg h2]

theorem getLastD_cons {α β : Type} (fs : List α) (a : α) (f : α → β) (d : β) :
    (((a :: fs).getLast?).map f).getD d = ((fs.getLast?).map f).getD (f a) := by
  cases fs with
  | nil => rfl
  | cons b l =>
      rw [List.getLast?_cons_cons]
      have hsome : ((b :: l).getLast?).isSome := by
        rw [List.getLast?_isSome]
        simp
      obtain ⟨x, hx⟩ := Option.isSome_iff_exists.mp hsome
      rw [hx]
      rfl

theorem foldl_child_idx (l : List (List Char)) (st : ProcState) :
    (l.foldl parseArg st).child_idx =
      (((l.filter isIdArg).getLast?).map (fun a => atoiChars (a.drop 5))).getD st.child_idx := by
  induction l generalizing st with
  | nil => simp
  | cons a l ih =>
      rw [List.foldl_cons, ih, List.filter_cons]
      by_cases ha : isIdArg a = true
      · rw [if_pos ha, getLastD_cons, parseArg_child_idx, if_pos ha]
      · rw [if_neg ha, parseArg_child_idx, if_neg ha]

theorem isIdArg_append (t : List Char) : isIdArg ("--id=".toList ++ t) = true := by
  unfold isIdArg
  rw [show (5 : Nat) = ("--id=".toList).length from rfl, List.take_left]
  simp

theorem id_marker_drop (t : List Char) : ("--id=".toList ++ t).drop 5 = t := by
  rw [show (5 : Nat) = ("--id=".toList).length from rfl, List.drop_left]

theorem orchestrate_eq (env : SpawnEnv) :
    orchestrate env = iterEvents env 1 ++ iterEvents env 2 := by
  simp [orchestrate, childIndices]

theorem iterEvents_owner (env : SpawnEnv) (i : Nat) :
    ∀ e ∈ iterEvents env i, eventOwner e = i := by
  intro e he
  unfold iterEvents at he
  cases h : env i with
  | none =>
      rw [h] at he
      rcases List.mem_cons.mp he with rfl | he'
      · rfl
      · rcases List.mem_cons.mp he' with rfl | he''
        · rfl
        · simp at he''
  | some s =>
      rw [h] at he
      simp only [List.mem_cons] at he
      rcases he with rfl | rfl | rfl | rfl | he' <;> first | rfl | simp at he'

theorem mainRun_parent (argv : List (List Char)) (env : SpawnEnv)
    (h : "--child".toList ∉ argv.drop 1) :
    mainRun argv env = RunResult.parent (orchestrate env) (Termination.normalReturn 0) := by
  have h0 : (parse_args argv).is_child = 0 := by
    unfold parse_args
    rw [foldl_is_child, if_neg h]
  simp [mainRun, h0]

theorem append_owner_ordered (A B : List Event)
    (hA : ∀ e ∈ A, eventOwner e = 1) (hB : ∀ e ∈ B, eventOwner e = 2)
    (j k : Nat) (hj : j < (A ++ B).length) (hk : k < (A ++ B).length)
    (h1 : eventOwner ((A ++ B).get ⟨j, hj⟩) = 1)
    (h2 : eventOwner ((A ++ B).get ⟨k, hk⟩) = 2) : j < k := by
  have hjA : j < A.length := by
    by_contra hge
    push_neg at hge
    have heq : (A ++ B).get ⟨j, hj⟩ = B.get ⟨j - A.length, by
        have := List.length_append A B
        omega⟩ := by
      simp only [List.get_eq_getElem]
      exact List.getElem_append_right hge
    have hmem : (A ++ B).get ⟨j, hj⟩ ∈ B := by
      rw [heq]
      simp only [List.get_eq_getElem]
      exact List.getElem_mem _
    have h2' := hB _ hmem
    rw [h1] at h2'
    exact absurd h2' (by decide)
  have hkA : A.length ≤ k := by
    by_contra hlt
    push_neg at hlt
    have heq : (A ++ B).get ⟨k, hk⟩ = A.get ⟨k, hlt⟩ := by
      simp only [List.get_eq_getElem]
      exact List.getElem_append_left hlt
    have hmem : (A ++ B).get ⟨k, hk⟩ ∈ A := by
      rw [heq]
      simp only [List.get_eq_getElem]
      exact List.getElem_mem _
    have h1' := hA _ hmem
    rw [h2] at h1'
    exact absurd h1' (by decide)
  omega

/- ------------------------------------------------------------------ -/
/-  Claim theorems                                                     -/
/- ------------------------------------------------------------------ -/

/-- C3: for every argument list in which the `--child` flag is absent (in
particular the empty one), the resolved role is Parent, regardless of any
`--id=` arguments present. -/
theorem role_defaults_to_parent (argv : List (List Char))
    (h : "--child".toList ∉ argv.drop 1) : resolveRole argv = InvocationRole.parent := by
  have h0 : (parse_args argv).is_child = 0 := by
    unfold parse_args
    rw [foldl_is_child, if_neg h]
  simp [resolveRole, h0]

theorem role_defaults_to_parent_witness :
    "--child".toList ∉ ([ "p".toList, "--id=7".toList ] : List (List Char)).drop 1 ∧
    resolveRole ["p".toList, "--id=7".toList] = InvocationRole.parent :=
  ⟨by decide, role_defaults_to_parent _ (by decide)⟩

/-- C7: if `--child` is present but no `--id=` argument is supplied, the
resolved role is Child with index defaulting to 0. -/
theorem missing_id_defaults_to_zero (argv : List (List Char))
    (hc : "--child".toList ∈ argv.drop 1)
    (hid : ∀ a ∈ argv.drop 1, isIdArg a = false) :
    resolveRole argv = InvocationRole.child 0 := by
  have h1 : (parse_args argv).is_child = 1 := by
    unfold parse_args
    rw [foldl_is_child, if_pos hc]
  have h2 : (parse_args argv).child_idx = 0 := by
    unfold parse_args
    rw [foldl_child_idx]
    have hfil : (argv.drop 1).filter isIdArg = [] :=
      List.filter_eq_nil_iff.mpr (by intro a ha; simp [hid a ha])
    rw [hfil]
    rfl
  simp [resolveRole, h1, h2]

theorem missing_id_defaults_to_zero_witness :
    resolveRole ["p".toList, "--child".toList] = InvocationRole.child 0 :=
  missing_id_defaults_to_zero _ (by decide) (by decide)

/-- C2: whenever the effective (last) `--id=` argument carries malformed,
non-numeric value text, the resolver yields index 0 (and, being a total
function, cannot crash). -/
theorem malformed_id_parses_to_zero (argv : List (List Char)) (t : List Char)
    (h : ∀ c ∈ t, isdigit c = false)
    (hlast : ((argv.drop 1).filter isIdArg).getLast? = some ("--id=".toList ++ t)) :
    (parse_args argv).child_idx = 0 := by
  unfold parse_args
  rw [foldl_child_idx, hlast]
  simp [id_marker_drop, atoiChars_no_digit t h]

theorem malformed_id_parses_to_zero_witness :
    (parse_args ["p".toList, "--child".toList, "--id=abc".toList]).child_idx = 0 := by
  have habc : "--id=abc".toList = "--id=".toList ++ "abc".toList := by decide
  exact malformed_id_parses_to_zero _ "abc".toList (by decide) (by rw [habc]; decide)

/-- C1: a child invocation carrying `--child` and (as its effective `--id=`
argument) `--id=N` terminates with exit code exactly N, delivered by the
abrupt-exit primitive at the end of `child_work`. The bound keeps N inside
the C `int` range that `atoi` and `_exit` receive. -/
theorem child_exit_code_identity (argv0 : List Char) (rest : List (List Char))
    (env : SpawnEnv) (N : Nat) (_hN : N ≤ 2147483647)
    (hc : "--child".toList ∈ rest)
    (hid : rest.filter isIdArg = ["--id=".toList ++ decimalChars N]) :
    mainRun (argv0 :: rest) env = RunResult.child (Termination.abruptExit (N : Int)) := by
  have hdrop : (argv0 :: rest).drop 1 = rest := rfl
  have h1 : (parse_args (argv0 :: rest)).is_child = 1 := by
    unfold parse_args
    rw [hdrop, foldl_is_child, if_pos hc]
  have h2 : (parse_args (argv0 :: rest)).child_idx = (N : Int) := by
    unfold parse_args
    rw [hdrop, foldl_child_idx, hid]
    simp [id_marker_drop, atoiChars_decimal]
  simp [mainRun, h1, h2, child_work]

theorem child_exit_code_identity_witness :
    mainRun ["p".toList, "--child".toList, "--id=".toList ++ decimalChars 12]
        (fun _ => none) = RunResult.child (Termination.abruptExit 12) :=
  child_exit_code_identity "p".toList _ _ 12 (by decide)
    (List.mem_cons_self _ _)
    (by rw [List.filter_cons, if_neg (by decide), List.filter_cons,
          if_pos (isIdArg_append _), List.filter_nil])

/-- C10: round-trip of the self-invocation protocol — resolving the argument
vector the orchestrator constructs for child i yields the Child role with
index exactly i. -/
theorem self_invocation_roundtrip (argv0 : List Char) (i : Nat)
    (_hi : i ≤ 2147483647) :
    resolveRole (childArgs argv0 i) = InvocationRole.child (i : Int) := by
  have hdrop : (childArgs argv0 i).drop 1 =
      ["--child".toList, "--id=".toList ++ decimalChars i] := rfl
  have h1 : (parse_args (childArgs argv0 i)).is_child = 1 := by
    unfold parse_args
    rw [hdrop, foldl_is_child, if_pos (by simp)]
  have h2 : (parse_args (childArgs argv0 i)).child_idx = (i : Int) := by
    unfold parse_args
    rw [hdrop, foldl_child_idx, List.filter_cons, if_neg (by decide), List.filter_cons,
      if_pos (isIdArg_append (decimalChars i)), List.filter_nil]
    simp [id_marker_drop, atoiChars_decimal]
  simp [resolveRole, h1, h2]

theorem self_invocation_roundtrip_witness :
    resolveRole (childArgs "p".toList 2) = InvocationRole.child 2 :=
  self_invocation_roundtrip "p".toList 2 (by decide)

/-- C9 (counterexample): the claim that the index always equals the zero
sentinel whenever the role is Parent fails — `./p --id=5` resolves to
Parent while `child_idx` holds 5, because `parse_args` stores any `--id=`
value regardless of `--child`. -/
theorem parent_index_sentinel_counterexample :
    resolveRole ["p".toList, "--id=5".toList] = InvocationRole.parent ∧
    (parse_args ["p".toList, "--id=5".toList]).child_idx = 5 ∧ (5 : Int) ≠ 0 := by
  decide

/-- C9 (amended): the index is meaningful only in the Child role — in the
Parent role the stored index is ignored, so parent-mode behaviour is
identical for any two argument lists lacking `--child` (the index need not
equal the zero sentinel, as the counterexample shows). -/
theorem parent_role_ignores_index (argv argv' : List (List Char)) (env : SpawnEnv)
    (h : "--child".toList ∉ argv.drop 1) (h' : "--child".toList ∉ argv'.drop 1) :
    mainRun argv env = mainRun argv' env := by
  rw [mainRun_parent argv env h, mainRun_parent argv' env h']

theorem parent_role_ignores_index_witness :
    mainRun ["p".toList] (fun _ => none) =
      mainRun ["p".toList, "--id=9".toList] (fun _ => none) :=
  parent_role_ignores_index _ _ _ (by decide) (by decide)

/-- C5: spawn-failure isolation — if the spawn of child 1 fails the
orchestrator still records the failure and attempts child 2, and for every
environment (any combination of per-child spawn results) the parent's own
termination is a normal return with code 0. -/
theorem spawn_failure_isolation (env : SpawnEnv) :
    (env 1 = none →
      Event.spawnFailed 1 ∈ orchestrate env ∧ Event.spawnAttempt 2 ∈ orchestrate env) ∧
    (∀ argv, "--child".toList ∉ argv.drop 1 →
      mainRun argv env = RunResult.parent (orchestrate env) (Termination.normalReturn 0)) := by
  constructor
  · intro hfail
    constructor
    · rw [orchestrate_eq]
      simp [iterEvents, hfail]
    · rw [orchestrate_eq]
      cases h2 : env 2 <;> simp [iterEvents, hfail, h2]
  · intro argv h
    exact mainRun_parent argv env h

theorem spawn_failure_isolation_witness :
    (Event.spawnFailed 1 ∈ orchestrate (fun _ => none) ∧
      Event.spawnAttempt 2 ∈ orchestrate (fun _ => none)) ∧
    mainRun ["p".toList] (fun _ => none) =
      RunResult.parent (orchestrate (fun _ => none)) (Termination.normalReturn 0) :=
  ⟨(spawn_failure_isolation (fun _ => none)).1 rfl,
    (spawn_failure_isolation (fun _ => none)).2 ["p".toList] (by decide)⟩

/-- C4: sequential orchestration — in parent mode exactly two spawn attempts
occur, for index 1 then index 2, and every step belonging to child 1
(including the completion of its wait) occupies a strictly earlier trace
position than every step belonging to child 2 (so the wait for child 1
completes before the spawn attempt for child 2, and no steps interleave). -/
theorem sequential_orchestration (env : SpawnEnv) :
    (orchestrate env).filter isSpawnAttemptEv =
      [Event.spawnAttempt 1, Event.spawnAttempt 2] ∧
    (∀ j k (hj : j < (orchestrate env).length) (hk : k < (orchestrate env).length),
      eventOwner ((orchestrate env).get ⟨j, hj⟩) = 1 →
      eventOwner ((orchestrate env).get ⟨k, hk⟩) = 2 → j < k) := by
  constructor
  · rw [orchestrate_eq, List.filter_append]
    cases h1 : env 1 <;> cases h2 : env 2 <;>
      simp [iterEvents, isSpawnAttemptEv, h1, h2]
  · rw [orchestrate_eq]
    exact append_owner_ordered _ _ (iterEvents_owner env 1) (iterEvents_owner env 2)

theorem sequential_orchestration_witness :
    (orchestrate (fun _ => some 0)).filter isSpawnAttemptEv =
      [Event.spawnAttempt 1, Event.spawnAttempt 2] ∧ (0 : Nat) < 4 :=
  ⟨(sequential_orchestration (fun _ => some 0)).1,
    (sequential_orchestration (fun _ => some 0)).2 0 4 (by decide) (by decide)
      (by decide) (by decide)⟩

/-- C6: status decoding — a raw status for a normal exit with code K decodes
to `exited K`, a raw status for death by signal S (with or without the core
bit) decodes to `signaled S`, the two categories are mutually exclusive on
every raw status, and a status that is neither is reported as `unknown`
with the raw word. -/
theorem decode_status_faithful :
    (∀ K, K < 256 → decode_status (256 * K) = TerminationOutcome.exited K) ∧
    (∀ S, 1 ≤ S → S ≤ 126 → decode_status S = TerminationOutcome.signaled S ∧
      decode_status (S + 128) = TerminationOutcome.signaled S) ∧
    (∀ s, wifexited s = true → wifsignaled s = false) ∧
    (∀ s, wifexited s = false → wifsignaled s = false →
      decode_status s = TerminationOutcome.unknown s) := by
  refine ⟨?_, ?_, ?_, ?_⟩
  · intro K hK
    have h1 : (256 * K) % 128 = 0 := by omega
    have hex : wifexited (256 * K) = true := by simp [wifexited, h1]
    have h2 : wexitstatus (256 * K) = K := by
      unfold wexitstatus
      rw [Nat.mul_div_cancel_left _ (by decide)]
      exact Nat.mod_eq_of_lt hK
    simp [decode_status, hex, h2]
  · intro S h1 h2
    have hm : S % 128 = S := Nat.mod_eq_of_lt (by omega)
    have hm' : (S + 128) % 128 = S := by omega
    constructor
    · have hex : wifexited S = false := by
        simp [wifexited, hm]
        omega
      have hsig : wifsignaled S = true := by
        simp [wifsignaled, hm]
        omega
      simp [decode_status, hex, hsig, wtermsig, hm]
    · have hex : wifexited (S + 128) = false := by
        simp [wifexited, hm']
        omega
      have hsig : wifsignaled (S + 128) = true := by
        simp [wifsignaled, hm']
        omega
      simp [decode_status, hex, hsig, wtermsig, hm']
  · intro s hex
    simp [wifexited] at hex
    simp [wifsignaled, hex]
  · intro s hex hsig
    simp [decode_status, hex, hsig]

theorem decode_status_faithful_witness :
    decode_status (256 * 3) = TerminationOutcome.exited 3 ∧
    decode_status 9 = TerminationOutcome.signaled 9 ∧
    decode_status 137 = TerminationOutcome.signaled 9 ∧
    decode_status 127 = TerminationOutcome.unknown 127 :=
  ⟨decode_status_faithful.1 3 (by decide),
    (decode_status_faithful.2.1 9 (by decide) (by decide)).1,
    (decode_status_faithful.2.1 9 (by decide) (by decide)).2,
    decode_status_faithful.2.2.2 127 (by decide) (by decide)⟩

/-- C8: on exec failure the forked child terminates immediately with the
distinguished code 127, which is non-zero and collides with no child's
index-derived exit code (the orchestrator only ever uses indices 1 and 2). -/
theorem exec_failure_code :
    execFailTermination = Termination.abruptExit 127 ∧ (127 : Int) ≠ 0 ∧
    ∀ i ∈ childIndices, child_work (i : Int) ≠ execFailTermination := by
  refine ⟨rfl, by decide, by decide⟩

theorem exec_failure_code_witness :
    child_work ((1 : Nat) : Int) ≠ execFailTermination :=
  exec_failure_code.2.2 1 (by decide)

end ProcDemo
